import Mathlib

/-!
Verification development for the SMART-on-FHIR authorization engine
(`smartAuthorizationHelper.js` and `smartHandler.js`).

The JavaScript source is shallowly embedded: JSON-like resource payloads
become the inductive `JsValue`, JS truthiness becomes `truthy`, and
functions that `throw` return `Except JsError` — including the runtime
TypeError of an unguarded property access on `null`/`undefined`
(`jsGetE`), which the reference-graph traversal can hit on a null array
element.  The per-FHIR-version reference matrices are external static
JSON data (out of scope for the source), so every function that consults
them is parametrized by a `RefMatrix`; `matrixForVersion` models the
version dispatch itself.
-/

/-- JSON-like values as manipulated by the JavaScript code.  `null` models
both JS `null` and `undefined` (absent fields).  Numbers are modelled as
integers; none of the verified claims involves fractional values. -/
inductive JsValue where
  | null : JsValue
  | bool (b : Bool) : JsValue
  | num (n : Int) : JsValue
  | str (s : String) : JsValue
  | arr (elems : List JsValue) : JsValue
  | obj (fields : List (String × JsValue)) : JsValue

/-- JS truthiness of a value (`undefined`/`null`, `false`, `0`, `""` are falsy). -/
def truthy : JsValue → Bool
  | .null => false
  | .bool b => b
  | .num n => n != 0
  | .str s => !s.isEmpty
  | .arr _ => true
  | .obj _ => true

/-- Property access `v[key]` on a receiver the source has already checked
to be truthy (therefore never `null`/`undefined`): first matching field of
an object, otherwise `null` for the `undefined` that JS yields on other
truthy receivers.  Used only at the guarded sites (lines 69/77 and 82-83
of the helper); every unguarded access goes through `jsGetE`. -/
def jsGet (v : JsValue) (key : String) : JsValue :=
  match v with
  | .obj fields =>
    match fields.find? (fun f => f.1 == key) with
    | some f => f.2
    | none => .null
  | _ => .null

/-- Errors thrown by the JavaScript source: `UnauthorizedError`s carrying a
message, plain configuration `Error`s, and uncaught runtime `TypeError`s
(property access on `undefined`). -/
inductive JsError where
  | unauthorized (message : String) : JsError
  | configError (message : String) : JsError
  | typeError : JsError
deriving DecidableEq, Repr

/-- Decidable equality of fallible results, for evaluating the model at
concrete inputs. -/
instance {ε α : Type} [DecidableEq ε] [DecidableEq α] : DecidableEq (Except ε α)
  | .error e, .error f =>
    if h : e = f then .isTrue (by rw [h])
    else .isFalse (fun hc => h (Except.error.inj hc))
  | .error _, .ok _ => .isFalse (fun hc => Except.noConfusion hc)
  | .ok _, .error _ => .isFalse (fun hc => Except.noConfusion hc)
  | .ok a, .ok b =>
    if h : a = b then .isTrue (by rw [h])
    else .isFalse (fun hc => h (Except.ok.inj hc))

/-- Unguarded property access `v[key]`: JS throws a TypeError when the
receiver is `null`/`undefined`, and yields the property (or `undefined`)
otherwise. -/
def jsGetE (v : JsValue) (key : String) : Except JsError JsValue :=
  match v with
  | .null => .error .typeError
  | v => .ok (jsGet v key)

/-- JS strict equality `v === s` against a string literal. -/
def jsStrEq (v : JsValue) (s : String) : Bool :=
  match v with
  | .str t => t == s
  | _ => false

/-- JS `s.startsWith(p)`, computed on the character lists. -/
def strStartsWith (s p : String) : Bool :=
  p.toList.isPrefixOf s.toList

/-- JS `s.split(sep)` for a single-character separator, computed on the
character lists. -/
def splitOnChar (s : String) (sep : Char) : List String :=
  (List.splitOn sep s.toList).map List.asString

/-- Drop the first `n` characters of a string. -/
def strDrop (s : String) (n : Nat) : String :=
  (s.toList.drop n).asString

/-- JS template-literal stringification, used by the source in
`system/(resourceType)` interpolation.  Absent fields print as
`undefined`; arrays join their elements with commas. -/
def templateStr : JsValue → String
  | .null => "undefined"
  | .bool b => if b then "true" else "false"
  | .num n => toString n
  | .str s => s
  | .arr es => String.intercalate "," (es.attach.map (fun x => templateStr x.1))
  | .obj _ => "[object Object]"
decreasing_by
  have h := List.sizeOf_lt_of_mem x.2
  simp only [JsValue.arr.sizeOf_spec]
  omega

/-- Structured identity parsed out of a reference string:
`(hostname, resourceType, id)` (the `FhirResource` type of the source). -/
structure FhirResource where
  hostname : String
  resourceType : String
  id : String
deriving DecidableEq, Repr

/-- Per-version reference matrix `matrix[sourceType][requestorType]`,
external static data consumed by `isRequestorReferenced`. -/
abbrev RefMatrix := String → String → Option (List String)

/-- The single opaque denial message of the source. -/
def GENERIC_ERR_MESSAGE : String := "Invalid access token"

/-- Version dispatch at the top of `isRequestorReferenced` (lines 44-53):
only versions 4.0.1 and 3.0.1 select a matrix, anything else throws a
plain `Error`. -/
def matrixForVersion (matrixV401 matrixV301 : RefMatrix) (fhirVersion : String) :
    Except JsError RefMatrix :=
  if fhirVersion == "4.0.1" then .ok matrixV401
  else if fhirVersion == "3.0.1" then .ok matrixV301
  else .error (.configError "Unsupported FHIR version detected")

/-- The lookup `matrix[sourceResourceType] && matrix[sourceResourceType][requestorResourceType]`
(line 55): the path list, defaulting to empty when either level misses.
The first index is the raw `sourceResource.resourceType` value; a
non-string value indexes nothing. -/
def matrixPaths (matrix : RefMatrix) (sourceResourceType : JsValue)
    (requestorResourceType : String) : List String :=
  match sourceResourceType with
  | .str st => (matrix st requestorResourceType).getD []
  | _ => []

/-- The per-element accesses `x[pathComponents[i]]` of the `forEach` at
line 73, in array order: the elements of an array layer are not
truthy-checked by the source, so a `null`/`undefined` element throws a
TypeError. -/
def mapGetE (key : String) : List JsValue → Except JsError (List JsValue)
  | [] => .ok []
  | x :: xs =>
    match jsGetE x key with
    | .error e => .error e
    | .ok v =>
      match mapGetE key xs with
      | .error e => .error e
      | .ok vs => .ok (v :: vs)

/-- One layer of the breadth-first expansion (the `while` loop body, lines
67-80): each truthy queue element either fans out (arrays contribute one
unguarded property access per element, which throws on a null element) or
descends directly through the guarded access; falsy elements are
dropped. -/
def bfsStepE (queue : List JsValue) (key : String) : Except JsError (List JsValue) :=
  match queue with
  | [] => .ok []
  | tempResource :: rest =>
    match (if truthy tempResource then
            match tempResource with
            | .arr xs => mapGetE key xs
            | _ => .ok [jsGet tempResource key]
          else .ok []) with
    | .error e => .error e
    | .ok vs =>
      match bfsStepE rest key with
      | .error e => .error e
      | .ok rest' => .ok (vs ++ rest')

/-- The `for` loop over the remaining path components (lines 64-81): one
`bfsStepE` layer per component, aborting on the first TypeError. -/
def foldStepsE (queue : List JsValue) : List String → Except JsError (List JsValue)
  | [] => .ok queue
  | key :: rest =>
    match bfsStepE queue key with
    | .error e => .error e
    | .ok next => foldStepsE next rest

/-- The final `nextQueue.flat()` (line 82): one level of array flattening. -/
def flatten1 (xs : List JsValue) : List JsValue :=
  xs.flatMap fun v =>
    match v with
    | .arr es => es
    | _ => [v]

/-- Leaf values reached from `sourceResource` along the dot-path components
(lines 60-82): seed the queue with the unguarded first property access
(line 63), run one `bfsStepE` per remaining component, flatten the final
layer once; a TypeError anywhere aborts the path. -/
def pathLeavesE (sourceResource : JsValue) (pathComponents : List String) :
    Except JsError (List JsValue) :=
  match pathComponents with
  | [] => .ok []
  | p0 :: rest =>
    match jsGetE sourceResource p0 with
    | .error e => .error e
    | .ok seed =>
      match foldStepsE [seed] rest with
      | .error e => .error e
      | .ok finalQueue => .ok (flatten1 finalQueue)

/-- Modelled from the spec (claim C2's reading): the same breadth-first
expansion but total, with every property access yielding `null` on a
non-object — ignoring the TypeError the source throws when an array
element is `null`/`undefined`.  Kept only to state the divergence between
the claim's description and the source. -/
def specBfsStep (queue : List JsValue) (key : String) : List JsValue :=
  queue.flatMap fun tempResource =>
    if truthy tempResource then
      match tempResource with
      | .arr xs => xs.map (fun x => jsGet x key)
      | _ => [jsGet tempResource key]
    else []

/-- Modelled from the spec (claim C2's reading): the total leaf expansion
built from `specBfsStep`, crash-free where the source throws. -/
def specPathLeaves (sourceResource : JsValue) (pathComponents : List String) : List JsValue :=
  match pathComponents with
  | [] => []
  | p0 :: rest => flatten1 (rest.foldl specBfsStep [jsGet sourceResource p0])

/-- The membership test `requestorIds.includes(x.reference)` with string candidates: only a
string value can be a member. -/
def jsIncludes (requestorIds : List String) : JsValue → Bool
  | .str s => requestorIds.contains s
  | _ => false

/-- The leaf test `x && x.reference && requestorIds.includes(x.reference)`
(line 83). -/
def leafMatches (requestorIds : List String) (x : JsValue) : Bool :=
  truthy x && truthy (jsGet x "reference") && jsIncludes requestorIds (jsGet x "reference")

/-- JS `Array.prototype.some` with a callback that may throw: paths are
tried in order, the first `true` short-circuits (a later crash is never
reached), and a thrown TypeError propagates. -/
def someM {α : Type} (f : α → Except JsError Bool) : List α → Except JsError Bool
  | [] => .ok false
  | a :: rest =>
    match f a with
    | .error e => .error e
    | .ok true => .ok true
    | .ok false => someM f rest

/-- The per-path body of the `.some` at lines 59-85: expand the dot-path,
then test the flattened leaves; a TypeError during the expansion
propagates. -/
def pathMatches (requestorIds : List String) (sourceResource : JsValue)
    (path : String) : Except JsError Bool :=
  match pathLeavesE sourceResource (splitOnChar path '.') with
  | .error e => .error e
  | .ok leaves => .ok (leaves.any (leafMatches requestorIds))

/-- Embedding of `isRequestorReferenced` (lines 42-86), parametrized by the
selected reference matrix: the unguarded `sourceResource.resourceType`
access (line 43) throws on a null source; then some dot-path of the
matrix entry, expanded breadth first, must end in a leaf whose
`reference` field is a candidate, with `.some` short-circuiting. -/
def isRequestorReferenced (matrix : RefMatrix) (requestorIds : List String)
    (requestorResourceType : String) (sourceResource : JsValue) : Except JsError Bool :=
  match jsGetE sourceResource "resourceType" with
  | .error e => .error e
  | .ok sourceResourceType =>
    someM (pathMatches requestorIds sourceResource)
      (matrixPaths matrix sourceResourceType requestorResourceType)

/-- Embedding of `hasReferenceToResource` (lines 87-95): external
requestors must appear fully qualified; local requestors may match the
source resource directly (the unguarded accesses of line 93 throw on a
null source) or be referenced under either the relative or the absolute
form. -/
def hasReferenceToResource (matrix : RefMatrix) (requestorId : FhirResource)
    (sourceResource : JsValue) (apiUrl : String) : Except JsError Bool :=
  if requestorId.hostname != apiUrl then
    isRequestorReferenced matrix
      [requestorId.hostname ++ "/" ++ requestorId.resourceType ++ "/" ++ requestorId.id]
      requestorId.resourceType sourceResource
  else
    match jsGetE sourceResource "resourceType" with
    | .error e => .error e
    | .ok sourceResourceType =>
      if jsStrEq sourceResourceType requestorId.resourceType &&
          jsStrEq (jsGet sourceResource "id") requestorId.id then
        .ok true
      else
        isRequestorReferenced matrix
          [requestorId.resourceType ++ "/" ++ requestorId.id,
           requestorId.hostname ++ "/" ++ requestorId.resourceType ++ "/" ++ requestorId.id]
          requestorId.resourceType sourceResource

/-- Embedding of `isFhirUserAdmin` (lines 97-99). -/
def isFhirUserAdmin (fhirUser : FhirResource) (adminAccessTypes : List String)
    (apiUrl : String) : Bool :=
  apiUrl == fhirUser.hostname && adminAccessTypes.contains fhirUser.resourceType

/-- Embedding of `hasSystemAccess` (lines 106-108): prefix tests against `system/*` and
`system/` followed by the resource type. -/
def hasSystemAccess (usableScopes : List String) (resourceType : String) : Bool :=
  usableScopes.any fun scope =>
    strStartsWith scope "system/*" || strStartsWith scope ("system/" ++ resourceType)

/-- Embedding of `hasAccessToResource` (lines 110-116): short-circuit
union of the system-scope channel (whose `sourceResource.resourceType`
argument is an unguarded access, throwing on a null source), the fhirUser
channel (admin or referenced), and the patient-launch-context channel,
evaluated in that order; a TypeError in an earlier channel prevents the
later channels.  The two identities are optional (`undefined` models as
`none`). -/
def hasAccessToResource (matrix : RefMatrix)
    (fhirUserObject patientLaunchContext : Option FhirResource)
    (sourceResource : JsValue) (usableScopes adminAccessTypes : List String)
    (apiUrl : String) : Except JsError Bool :=
  match jsGetE sourceResource "resourceType" with
  | .error e => .error e
  | .ok sourceResourceType =>
    if hasSystemAccess usableScopes (templateStr sourceResourceType) then
      .ok true
    else
      match ((match fhirUserObject with
             | some fhirUser =>
               if isFhirUserAdmin fhirUser adminAccessTypes apiUrl then .ok true
               else hasReferenceToResource matrix fhirUser sourceResource apiUrl
             | none => .ok false) : Except JsError Bool) with
      | .error e => .error e
      | .ok fhirUserGrants =>
        if fhirUserGrants then
          .ok true
        else
          match patientLaunchContext with
          | some ctx => hasReferenceToResource matrix ctx sourceResource apiUrl
          | none => .ok false

/-- Resource types admitted by `FHIR_USER_REGEX` (line 18). -/
def FHIR_USER_RESOURCE_TYPES : List String :=
  ["Person", "Practitioner", "RelatedPerson", "Patient"]

/-- Character class of the hostname interior in both regexes:
`[A-Za-z0-9\-\\.:%$_/]`. -/
def isHostChar (c : Char) : Bool :=
  c.isAlphanum || c == '-' || c == '\\' || c == '.' || c == ':' ||
    c == '%' || c == '$' || c == '_' || c == '/'

/-- Character class of the id group in both regexes: `[A-Za-z0-9\-.]`. -/
def isIdChar (c : Char) : Bool :=
  c.isAlphanum || c == '-' || c == '.'

/-- The `(http|https)://` scheme prefix of the hostname group: strip it,
returning the interior that must be a non-empty run of host characters. -/
def hostTail (hostname : String) : Option String :=
  if strStartsWith hostname "https://" then some (strDrop hostname 8)
  else if strStartsWith hostname "http://" then some (strDrop hostname 7)
  else none

/-- Does `hostname` match the full hostname group `(http|https)://[class]+`? -/
def validHostname (hostname : String) : Bool :=
  match hostTail hostname with
  | some tail => !tail.isEmpty && tail.toList.all isHostChar
  | none => false

/-- Does `idSeg` match the id group `[A-Za-z0-9\-.]+`? -/
def validId (idSeg : String) : Bool :=
  !idSeg.isEmpty && idSeg.toList.all isIdChar

/-- Resource-type group of `FHIR_RESOURCE_REGEX`: `[A-Z][a-zA-Z]+`. -/
def validResourceTypeWord (rt : String) : Bool :=
  match rt.toList with
  | c :: rest => c.isUpper && !rest.isEmpty && rest.all (fun d => d.isAlpha)
  | [] => false

/-- Embedding of `getFhirUser` (lines 21-29).  `FHIR_USER_REGEX` is anchored at both
ends and its id group and resource-type alternatives contain no slash, so
a match decomposes uniquely as `hostname / resourceType / id` with the id
the segment after the last slash and the resource type the segment before
it; this def implements that unique decomposition. -/
def getFhirUser (fhirUserValue : String) : Except JsError FhirResource :=
  match (splitOnChar fhirUserValue '/').reverse with
  | idSeg :: rtSeg :: rest =>
    let hostname := String.intercalate "/" rest.reverse
    if validId idSeg && FHIR_USER_RESOURCE_TYPES.contains rtSeg && validHostname hostname then
      .ok ⟨hostname, rtSeg, idSeg⟩
    else
      .error (.unauthorized "Requester's identity is in the incorrect format")
  | _ => .error (.unauthorized "Requester's identity is in the incorrect format")

/-- Embedding of `getFhirResource` (lines 30-40).  Same anchored decomposition as
`getFhirUser`, but the hostname prefix is optional (absent exactly when
the string has a single slash, in which case `defaultHostname` is
substituted) and the resource type is any capitalized word. -/
def getFhirResource (resourceValue defaultHostname : String) : Except JsError FhirResource :=
  match (splitOnChar resourceValue '/').reverse with
  | [idSeg, rtSeg] =>
    if validId idSeg && validResourceTypeWord rtSeg then
      .ok ⟨defaultHostname, rtSeg, idSeg⟩
    else
      .error (.unauthorized "Resource is in the incorrect format")
  | idSeg :: rtSeg :: rest =>
    let hostname := String.intercalate "/" rest.reverse
    if validId idSeg && validResourceTypeWord rtSeg && validHostname hostname then
      .ok ⟨hostname, rtSeg, idSeg⟩
    else
      .error (.unauthorized "Resource is in the incorrect format")
  | _ => .error (.unauthorized "Resource is in the incorrect format")

/-- The `aud` claim of a JWT payload: absent, a single string, or a list. -/
inductive AudClaim where
  | absent : AudClaim
  | str (a : String) : AudClaim
  | list (xs : List String) : AudClaim

/-- JWT payload fields consulted by `decodeJwtToken`.  `iss` is `none`
when the claim is absent. -/
structure JwtPayload where
  iss : Option String
  aud : AudClaim

/-- A structurally decoded JWT: the `kid` header attribute plus the
payload.  The raw output of `jsonwebtoken.decode` is modelled as
`Option DecodedJwt`, with `none` covering both `null` and string
results. -/
structure DecodedJwt where
  kid : Option String
  payload : JwtPayload

/-- The `audArray` normalization (lines 141-149): an absent or empty-string
`aud` contributes nothing, a non-empty string becomes a singleton. -/
def audArrayOf : AudClaim → List String
  | .absent => []
  | .str a => if a.isEmpty then [] else [a]
  | .list xs => xs

/-- Embedding of `decodeJwtToken` (lines 130-158), starting from the result of the
external `jsonwebtoken.decode` call.  The expected audience is a
predicate, covering both the string-equality and the RegExp-test form of
`expectedAudValue`. -/
def decodeJwtToken (decoded : Option DecodedJwt) (expectedAudValue : String → Bool)
    (expectedIssValue : String) : Except JsError DecodedJwt :=
  match decoded with
  | none => .error (.unauthorized GENERIC_ERR_MESSAGE)
  | some decodedAccessToken =>
    if decodedAccessToken.payload.iss != some expectedIssValue then
      .error (.unauthorized GENERIC_ERR_MESSAGE)
    else if (audArrayOf decodedAccessToken.payload.aud).any expectedAudValue then
      .ok decodedAccessToken
    else
      .error (.unauthorized GENERIC_ERR_MESSAGE)

/-- Embedding of `verifyJwtToken` (lines 159-175): decode first, then require a truthy
`kid` header, then run the signature check (the external JWKS key fetch
plus `jsonwebtoken.verify`, supplied here as its outcome); any signature
failure collapses to the opaque denial. -/
def verifyJwtToken (decoded : Option DecodedJwt) (expectedAudValue : String → Bool)
    (expectedIssValue : String) (signatureCheck : Except JsError JwtPayload) :
    Except JsError JwtPayload :=
  match decodeJwtToken decoded expectedAudValue expectedIssValue with
  | .error e => .error e
  | .ok decodedAccessToken =>
    match decodedAccessToken.kid with
    | none => .error (.unauthorized GENERIC_ERR_MESSAGE)
    | some kid =>
      if kid.isEmpty then .error (.unauthorized GENERIC_ERR_MESSAGE)
      else
        match signatureCheck with
        | .ok payload => .ok payload
        | .error _ => .error (.unauthorized GENERIC_ERR_MESSAGE)

/-- Embedding of `introspectJwtToken` (lines 176-211): decode first, then the external
introspection HTTP call (supplied as its outcome: an error, or the
`active` flag of the response); a transport error or an inactive token
collapses to the opaque denial. -/
def introspectJwtToken (decoded : Option DecodedJwt) (expectedAudValue : String → Bool)
    (expectedIssValue : String) (introspectionResult : Except JsError Bool) :
    Except JsError JwtPayload :=
  match decodeJwtToken decoded expectedAudValue expectedIssValue with
  | .error e => .error e
  | .ok decodedAccessToken =>
    match introspectionResult with
    | .error _ => .error (.unauthorized GENERIC_ERR_MESSAGE)
    | .ok active =>
      if active then .ok decodedAccessToken.payload
      else .error (.unauthorized GENERIC_ERR_MESSAGE)

/-- The `SearchFilter` records emitted by `getSearchFilterBasedOnIdentity`. -/
structure SearchFilter where
  key : String
  value : List String
  comparisonOperator : String
  logicalOperator : String
deriving DecidableEq, Repr

/-- JS `Set.add`: sets preserve insertion order and spreading them back
into an array (`[...s]`) yields that order, so a set is an
insertion-ordered duplicate-free list. -/
def setAdd (s : List String) (x : String) : List String :=
  if s.contains x then s else s ++ [x]

/-- JS truthiness of an optional string claim (absent and `""` are falsy). -/
def jsTruthyOptStr : Option String → Bool
  | some s => !s.isEmpty
  | none => false

/-- The identity block repeated for `fhirUserObject` and
`patientLaunchContext` in `getSearchFilterBasedOnIdentity` (lines 108-131,
minus the admin early return): add the absolute reference, add the
relative reference when the hostname is local, and add the id when the
requested resource type is truthy and equals the identity's type. -/
def accumulateIdentity (identity : FhirResource) (requestResourceType : Option String)
    (fhirServiceBaseUrl : String) (references ids : List String) :
    List String × List String :=
  let references := setAdd references
    (identity.hostname ++ "/" ++ identity.resourceType ++ "/" ++ identity.id)
  let references :=
    if identity.hostname == fhirServiceBaseUrl then
      setAdd references (identity.resourceType ++ "/" ++ identity.id)
    else references
  let ids :=
    if (match requestResourceType with
        | some rt => !rt.isEmpty && rt == identity.resourceType
        | none => false) then
      setAdd ids identity.id
    else ids
  (references, ids)

/-- Embedding of `getSearchFilterBasedOnIdentity` (lines 99-151).  Returns no filters
for system access (tested with the empty resource type) or for a local
admin fhirUser; otherwise emits an OR-joined `_references` filter and an
OR-joined `id` filter, each omitted when its candidate set is empty. -/
def getSearchFilterBasedOnIdentity (fhirUserObject patientLaunchContext : Option FhirResource)
    (usableScopes adminAccessTypes : List String) (requestResourceType : Option String)
    (requestFhirServiceBaseUrl : Option String) (apiUrl : String) : List SearchFilter :=
  let fhirServiceBaseUrl := requestFhirServiceBaseUrl.getD apiUrl
  if hasSystemAccess usableScopes "" then []
  else if (match fhirUserObject with
           | some fhirUser => isFhirUserAdmin fhirUser adminAccessTypes fhirServiceBaseUrl
           | none => false) then []
  else
    let acc := match fhirUserObject with
      | some fhirUser => accumulateIdentity fhirUser requestResourceType fhirServiceBaseUrl [] []
      | none => ([], [])
    let acc := match patientLaunchContext with
      | some ctx => accumulateIdentity ctx requestResourceType fhirServiceBaseUrl acc.1 acc.2
      | none => acc
    (if acc.1.length > 0 then
      [SearchFilter.mk "_references" acc.1 "==" "OR"]
     else []) ++
    (if acc.2.length > 0 then
      [SearchFilter.mk "id" acc.2 "==" "OR"]
     else [])

/-- One entry of a bundle request: `(operation, resourceType, resource)`. -/
structure BundleEntry where
  operation : String
  resourceType : String
  resource : JsValue

/-- Embedding of `isWriteRequestAuthorized` (lines 236-244): all-or-nothing
`hasAccessToResource` check on the resource body. -/
def isWriteRequestAuthorized (matrix : RefMatrix)
    (fhirUserObject patientLaunchContext : Option FhirResource)
    (usableScopes adminAccessTypes : List String) (resourceBody : JsValue)
    (requestFhirServiceBaseUrl : Option String) (apiUrl : String) : Except JsError Unit :=
  let fhirServiceBaseUrl := requestFhirServiceBaseUrl.getD apiUrl
  match hasAccessToResource matrix fhirUserObject patientLaunchContext resourceBody
      usableScopes adminAccessTypes fhirServiceBaseUrl with
  | .ok true => .ok ()
  | .ok false => .error (.unauthorized "User does not have permission for requested operation")
  | .error e => .error e

/-- The mutating operations singled out at line 170. -/
def mutatingOperations : List String := ["create", "update", "patch", "delete"]

/-- The per-bundle recomputation of usable scopes (lines 154-156). -/
def bundleUsableScopes (scopes : List String)
    (fhirUserObject patientLaunchContext : Option FhirResource) : List String :=
  scopes.filter fun scope =>
    (patientLaunchContext.isSome && strStartsWith scope "patient/") ||
    (fhirUserObject.isSome && strStartsWith scope "user/") ||
    strStartsWith scope "system/"

/-- Is an `Except` an error? -/
def isError : Except JsError Unit → Bool
  | .error _ => true
  | .ok _ => false

/-- Embedding of `isBundleRequestAuthorized` (lines 152-186), parametrized by the
external ScopeEngine predicate `isScopeSufficient` (applied to a scope,
an operation and a resource type; the rule table and export flag are
fixed configuration).  Every entry must be covered by some usable scope,
and every mutating entry must pass `isWriteRequestAuthorized`; either
failure rejects the whole bundle with one denial. -/
def isBundleRequestAuthorized (matrix : RefMatrix)
    (isScopeSufficient : String → String → String → Bool)
    (scopes : List String) (fhirUserObject patientLaunchContext : Option FhirResource)
    (requests : List BundleEntry) (adminAccessTypes : List String)
    (requestFhirServiceBaseUrl : Option String) (apiUrl : String) : Except JsError Unit :=
  let usableScopes := bundleUsableScopes scopes fhirUserObject patientLaunchContext
  if requests.any (fun req =>
      !(usableScopes.any fun scope => isScopeSufficient scope req.operation req.resourceType)) then
    .error (.unauthorized "An entry within the Bundle is not authorized")
  else if requests.any (fun req =>
      mutatingOperations.contains req.operation &&
      isError (isWriteRequestAuthorized matrix fhirUserObject patientLaunchContext
        usableScopes adminAccessTypes req.resource requestFhirServiceBaseUrl apiUrl)) then
    .error (.unauthorized "An entry within the Bundle is not authorized")
  else
    .ok ()

/-- The claims of a verified token consulted by `verifyAccessToken`:
the subject, the `lodash.get` results of the configured fhirUser and
launch-context claim paths (`none` models an absent claim), and the
scope list already split by the external `getScopes`. -/
structure DecodedToken where
  sub : Option String
  fhirUserClaim : Option String
  patientContextClaim : Option String
  scopes : List String

/-- The `userIdentity` produced by `verifyAccessToken`. -/
structure UserIdentity where
  sub : Option String
  fhirUserObject : Option FhirResource
  patientLaunchContext : Option FhirResource
  scopes : List String
  usableScopes : List String

/-- The bulk-data branch of `verifyAccessToken` (lines 67-82): require a
truthy `sub`; when no usable scope is a system scope, the fhirUser claim
is parsed (the source calls `fhirUserClaim.match` even when the claim is
absent, a runtime TypeError) and must be local and of a bulk-data-eligible
type. -/
def bulkDataAuthCheck (bulkDataAccessTypes : List String) (sub : Option String)
    (fhirUserClaim : Option String) (usableScopes : List String)
    (fhirServiceBaseUrl : String) : Except JsError Unit :=
  if !(jsTruthyOptStr sub) then
    .error (.unauthorized "User does not have permission for requested operation")
  else if usableScopes.any (fun scope => strStartsWith scope "system") then
    .ok ()
  else
    match fhirUserClaim with
    | none => .error .typeError
    | some claim =>
      match getFhirUser claim with
      | .error e => .error e
      | .ok fhirUser =>
        if fhirUser.hostname != fhirServiceBaseUrl ||
            !(bulkDataAccessTypes.contains fhirUser.resourceType) then
          .error (.unauthorized "User does not have permission for requested operation")
        else .ok ()

/-- Lines 83-85: attach `fhirUserObject` when the claim is truthy and some
usable scope starts with `user/`; parsing a malformed claim fails the
whole call. -/
def attachFhirUser (usableScopes : List String) (fhirUserClaim : Option String) :
    Except JsError (Option FhirResource) :=
  match fhirUserClaim with
  | some claim =>
    if !claim.isEmpty && usableScopes.any (fun scope => strStartsWith scope "user/") then
      match getFhirUser claim with
      | .ok fhirUser => .ok (some fhirUser)
      | .error e => .error e
    else .ok none
  | none => .ok none

/-- Lines 86-88: attach `patientLaunchContext` when the claim is truthy
and some usable scope starts with `patient/`. -/
def attachPatientContext (usableScopes : List String) (patientContextClaim : Option String)
    (fhirServiceBaseUrl : String) : Except JsError (Option FhirResource) :=
  match patientContextClaim with
  | some claim =>
    if !claim.isEmpty && usableScopes.any (fun scope => strStartsWith scope "patient/") then
      match getFhirResource claim fhirServiceBaseUrl with
      | .ok ctx => .ok (some ctx)
      | .error e => .error e
    else .ok none
  | none => .ok none

/-- Embedding of `verifyAccessToken` (lines 40-92) after the token itself has been
verified (the TokenVerifier call is external network work; `decodedToken`
is its result).  The ScopeEngine's `filterOutUnusableScope` lives in a
module outside this source, so it is passed in as a function of the
scope list and the two claims (its other arguments are fixed per
request). -/
def verifyAccessToken
    (filterOutUnusableScope : List String → Option String → Option String → List String)
    (bulkDataAccessTypes : List String) (decodedToken : DecodedToken)
    (bulkDataAuth : Bool) (requestFhirServiceBaseUrl : Option String) (apiUrl : String) :
    Except JsError UserIdentity :=
  let fhirUserClaim := decodedToken.fhirUserClaim
  let patientContextClaim := decodedToken.patientContextClaim
  let fhirServiceBaseUrl := requestFhirServiceBaseUrl.getD apiUrl
  let scopes := decodedToken.scopes
  let usableScopes := filterOutUnusableScope scopes patientContextClaim fhirUserClaim
  if usableScopes.length == 0 then
    .error (.unauthorized "access_token does not have permission for requested operation")
  else
    match (if bulkDataAuth then
            bulkDataAuthCheck bulkDataAccessTypes decodedToken.sub fhirUserClaim
              usableScopes fhirServiceBaseUrl
           else .ok ()) with
    | .error e => .error e
    | .ok _ =>
      match attachFhirUser usableScopes fhirUserClaim with
      | .error e => .error e
      | .ok fhirUserObject =>
        match attachPatientContext usableScopes patientContextClaim fhirServiceBaseUrl with
        | .error e => .error e
        | .ok patientLaunchContext =>
          .ok ⟨decodedToken.sub, fhirUserObject, patientLaunchContext, scopes, usableScopes⟩

/-- A search read response as the source manipulates it: an optional
`entry` array (absent models `undefined`) and an optional numeric
`total` (JS `0` is falsy). -/
structure SearchReadResponse where
  entry : Option (List JsValue)
  total : Option Int

/-- JS `Array.prototype.filter` with a predicate that may throw: elements
are tested in order and a thrown TypeError propagates out of the
filter. -/
def filterE {α : Type} (f : α → Except JsError Bool) : List α → Except JsError (List α)
  | [] => .ok []
  | a :: rest =>
    match f a with
    | .error e => .error e
    | .ok keep =>
      match filterE f rest with
      | .error e => .error e
      | .ok rest' => .ok (if keep then a :: rest' else rest')

/-- The per-entry predicate of line 220: the unguarded `entry.resource`
access (throwing on a null entry element) followed by the access
decision, which may itself throw during reference traversal. -/
def entryAccessible (matrix : RefMatrix)
    (fhirUserObject patientLaunchContext : Option FhirResource)
    (usableScopes adminAccessTypes : List String) (fhirServiceBaseUrl : String)
    (entry : JsValue) : Except JsError Bool :=
  match jsGetE entry "resource" with
  | .error e => .error e
  | .ok resource =>
    hasAccessToResource matrix fhirUserObject patientLaunchContext resource
      usableScopes adminAccessTypes fhirServiceBaseUrl

/-- The search branch of `authorizeAndFilterReadResponse` (lines 219-228):
filter the entries through the access decision (a TypeError thrown on a
null entry element or during traversal propagates); when the reported
`total` is truthy, subtract the dropped-entry count — re-reading
`readResponse.entry`, which is a TypeError when the field is absent —
otherwise fall back to the filtered count. -/
def authorizeAndFilterSearchResponse (matrix : RefMatrix)
    (fhirUserObject patientLaunchContext : Option FhirResource)
    (usableScopes adminAccessTypes : List String)
    (requestFhirServiceBaseUrl : Option String) (apiUrl : String)
    (readResponse : SearchReadResponse) : Except JsError SearchReadResponse :=
  let fhirServiceBaseUrl := requestFhirServiceBaseUrl.getD apiUrl
  match filterE (entryAccessible matrix fhirUserObject patientLaunchContext usableScopes
      adminAccessTypes fhirServiceBaseUrl) (readResponse.entry.getD []) with
  | .error e => .error e
  | .ok entries =>
    match readResponse.total with
    | none => .ok ⟨some entries, some entries.length⟩
    | some numTotal =>
      if numTotal == 0 then .ok ⟨some entries, some entries.length⟩
      else
        match readResponse.entry with
        | none => .error .typeError
        | some es => .ok ⟨some entries, some (numTotal - ((es.length : Int) - entries.length))⟩

/-- The non-search branch of `authorizeAndFilterReadResponse` (lines
230-234): the response is a single resource, returned as-is when
accessible; a traversal TypeError propagates. -/
def authorizeAndFilterResourceResponse (matrix : RefMatrix)
    (fhirUserObject patientLaunchContext : Option FhirResource)
    (usableScopes adminAccessTypes : List String)
    (requestFhirServiceBaseUrl : Option String) (apiUrl : String)
    (readResponse : JsValue) : Except JsError JsValue :=
  let fhirServiceBaseUrl := requestFhirServiceBaseUrl.getD apiUrl
  match hasAccessToResource matrix fhirUserObject patientLaunchContext readResponse
      usableScopes adminAccessTypes fhirServiceBaseUrl with
  | .ok true => .ok readResponse
  | .ok false => .error (.unauthorized "User does not have permission for requested resource")
  | .error e => .error e

/-- A reference matrix with a single nested list-of-list path, for the
concrete reference-traversal scenarios. -/
def nestedMatrix : RefMatrix := fun sourceType requestorType =>
  if sourceType == "Bundle" && requestorType == "Patient" then some ["entry.item"] else none

/-- A source resource whose `entry.item` path crosses two array layers:
`entry` is a list of objects whose `item` field is again a list. -/
def nestedSource : JsValue := .obj [
  ("resourceType", .str "Bundle"),
  ("entry", .arr [
    .obj [("item", .arr [
      .obj [("reference", .str "Patient/1")],
      .obj [("reference", .str "Patient/2")]])],
    .obj [("item", .arr [
      .obj [("reference", .str "Patient/3")]])]
  ])]

/-- Like `nestedSource`, but the `entry` array holds a null element before
the branch with the matching reference: the source dereferences the null
element (line 73) and throws before it could find the match. -/
def crashSource : JsValue := .obj [
  ("resourceType", .str "Bundle"),
  ("entry", .arr [
    .null,
    .obj [("item", .arr [
      .obj [("reference", .str "Patient/3")]])]
  ])]

/-- A matrix declaring that a Patient resource may reference a
Practitioner along `generalPractitioner.x`, for the monotonicity
counterexample. -/
def gpMatrix : RefMatrix := fun sourceType requestorType =>
  if sourceType == "Patient" && requestorType == "Practitioner" then
    some ["generalPractitioner.x"]
  else none

/-- A Patient resource whose `generalPractitioner` array holds a null
element: traversing the `gpMatrix` path over it throws a TypeError. -/
def gpCrashSource : JsValue := .obj [
  ("resourceType", .str "Patient"),
  ("id", .str "5"),
  ("generalPractitioner", .arr [.null])]

theorem list_any_or {α : Type} (l : List α) (f g : α → Bool) :
    (l.any fun x => f x || g x) = (l.any f || l.any g) := by
  induction l with
  | nil => rfl
  | cons a t ih =>
    simp only [List.any_cons, ih]
    cases f a <;> cases g a <;> simp

theorem contains_append (l₁ l₂ : List String) (s : String) :
    (l₁ ++ l₂).contains s = (l₁.contains s || l₂.contains s) := by
  induction l₁ with
  | nil => simp
  | cons a t ih =>
    by_cases h : a = s
    · simp [h, List.contains_cons]
    · simp only [List.cons_append, List.contains_cons, ih]
      cases hb : s == a <;> simp [Bool.or_assoc]

theorem leafMatches_append (ids1 ids2 : List String) (x : JsValue) :
    leafMatches (ids1 ++ ids2) x = (leafMatches ids1 x || leafMatches ids2 x) := by
  unfold leafMatches jsIncludes
  cases jsGet x "reference" with
  | str s =>
    simp only [contains_append]
    cases truthy x <;> cases (ids1.contains s) <;> cases (ids2.contains s) <;> simp
  | null => simp
  | bool b => simp
  | num n => simp
  | arr es => simp
  | obj fs => simp

theorem someM_all_ok {α : Type} (l : List α) (f : α → Except JsError Bool)
    (h : ∀ x ∈ l, ∃ b, f x = .ok b) :
    (someM f l = .ok true ↔ ∃ x ∈ l, f x = .ok true) ∧
    (someM f l = .ok false ↔ ∀ x ∈ l, f x = .ok false) := by
  induction l with
  | nil => simp [someM]
  | cons a t ih =>
    obtain ⟨b, hb⟩ := h a (List.mem_cons_self a t)
    have iht := ih (fun x hx => h x (List.mem_cons_of_mem a hx))
    cases b with
    | true => simp [someM, hb]
    | false => simp [someM, hb, iht.1, iht.2]

theorem someM_or_split {α : Type} (l : List α) (f g h : α → Except JsError Bool)
    (hpt : ∀ x ∈ l,
      (h x = .ok true ↔ (f x = .ok true ∨ g x = .ok true)) ∧
      (h x = .ok false ↔ (f x = .ok false ∧ g x = .ok false)) ∧
      (∀ e, h x = .error e ↔ f x = .error e) ∧
      (∀ e, f x = .error e ↔ g x = .error e)) :
    (someM h l = .ok true ↔ (someM f l = .ok true ∨ someM g l = .ok true)) := by
  induction l with
  | nil => simp [someM]
  | cons a t ih =>
    obtain ⟨h1, h2, h3, h4⟩ := hpt a (List.mem_cons_self a t)
    have iht := ih (fun x hx => hpt x (List.mem_cons_of_mem a hx))
    cases hha : h a with
    | ok b =>
      cases b with
      | true =>
        rcases h1.mp hha with hf | hg
        · simp [someM, hha, hf]
        · simp [someM, hha, hg]
      | false =>
        obtain ⟨hf, hg⟩ := h2.mp hha
        simp [someM, hha, hf, hg, iht]
    | error e =>
      have hf := (h3 e).mp hha
      have hg := (h4 e).mp hf
      simp [someM, hha, hf, hg]

theorem pathMatches_append (ids1 ids2 : List String) (sourceResource : JsValue)
    (path : String) :
    (pathMatches (ids1 ++ ids2) sourceResource path = .ok true ↔
      (pathMatches ids1 sourceResource path = .ok true ∨
       pathMatches ids2 sourceResource path = .ok true)) ∧
    (pathMatches (ids1 ++ ids2) sourceResource path = .ok false ↔
      (pathMatches ids1 sourceResource path = .ok false ∧
       pathMatches ids2 sourceResource path = .ok false)) ∧
    (∀ e, pathMatches (ids1 ++ ids2) sourceResource path = .error e ↔
      pathMatches ids1 sourceResource path = .error e) ∧
    (∀ e, pathMatches ids1 sourceResource path = .error e ↔
      pathMatches ids2 sourceResource path = .error e) := by
  unfold pathMatches
  cases pathLeavesE sourceResource (splitOnChar path '.') with
  | error e => simp
  | ok leaves =>
    have hfun : leafMatches (ids1 ++ ids2) =
        fun x => leafMatches ids1 x || leafMatches ids2 x :=
      funext (leafMatches_append ids1 ids2)
    simp only [hfun, list_any_or]
    cases leaves.any (leafMatches ids1) <;> cases leaves.any (leafMatches ids2) <;> simp

theorem isRequestorReferenced_error_of_null (matrix : RefMatrix) (requestorIds : List String)
    (requestorResourceType : String) (sourceResource : JsValue) (e : JsError)
    (h : jsGetE sourceResource "resourceType" = .error e) :
    isRequestorReferenced matrix requestorIds requestorResourceType sourceResource =
      .error e := by
  unfold isRequestorReferenced
  rw [h]

theorem isRequestorReferenced_append (matrix : RefMatrix) (ids1 ids2 : List String)
    (requestorResourceType : String) (sourceResource : JsValue) :
    isRequestorReferenced matrix (ids1 ++ ids2) requestorResourceType sourceResource =
        .ok true ↔
      (isRequestorReferenced matrix ids1 requestorResourceType sourceResource = .ok true ∨
       isRequestorReferenced matrix ids2 requestorResourceType sourceResource = .ok true) := by
  unfold isRequestorReferenced
  cases jsGetE sourceResource "resourceType" with
  | error e => simp
  | ok stv =>
    exact someM_or_split (matrixPaths matrix stv requestorResourceType)
      (pathMatches ids1 sourceResource) (pathMatches ids2 sourceResource)
      (pathMatches (ids1 ++ ids2) sourceResource)
      (fun path _ => pathMatches_append ids1 ids2 sourceResource path)

theorem strStartsWith_trans (s p q : String) (hpq : strStartsWith p q = true)
    (hsp : strStartsWith s p = true) : strStartsWith s q = true := by
  simp only [strStartsWith, List.isPrefixOf_iff_prefix] at *
  exact hpq.trans hsp

/-- Claim C1 as frozen is false on the code: `hasSystemAccess` accepts the
scope `system/*.read` for resource type `Patient` although that scope is
exactly neither `system/*` nor `system/Patient` — the source tests
prefixes, not equality. -/
theorem hasSystemAccess_exact_match_counterexample :
    hasSystemAccess ["system/*.read"] "Patient" = true ∧
    ¬("system/*.read" = "system/*" ∨ "system/*.read" = "system/Patient") := by
  constructor
  · decide
  · decide

/-- Claim C1 (amended): for every list of usable scope strings and every
resource type, `hasSystemAccess` returns true iff some scope in the list
starts with `system/*` or starts with `system/` followed by the resource
type; in particular `hasSystemAccess(["system/*"], t)` is true for every
`t`, and `hasSystemAccess(["system/Patient"], "Observation")` is false. -/
theorem hasSystemAccess_prefix_characterization :
    (∀ (usableScopes : List String) (resourceType : String),
      hasSystemAccess usableScopes resourceType = true ↔
        ∃ scope ∈ usableScopes,
          (strStartsWith scope "system/*" = true ∨
           strStartsWith scope ("system/" ++ resourceType) = true)) ∧
    (∀ t : String, hasSystemAccess ["system/*"] t = true) ∧
    hasSystemAccess ["system/Patient"] "Observation" = false := by
  refine ⟨?_, ?_, by decide⟩
  · intro usableScopes resourceType
    simp [hasSystemAccess, List.any_eq_true]
  · intro t
    have hstar : strStartsWith "system/*" "system/*" = true := by decide
    simp [hasSystemAccess, hstar]

/-- Claim C2 as frozen is false on the code: on `crashSource` the single
matrix path's expansion as the claim describes it ends in a leaf whose
reference is the candidate, yet the source throws a TypeError (the null
`entry` element is dereferenced at line 73) instead of returning true. -/
theorem isRequestorReferenced_crash_counterexample :
    (∃ leaf ∈ specPathLeaves crashSource ["entry", "item"],
      leafMatches ["Patient/3"] leaf = true) ∧
    matrixPaths nestedMatrix (.str "Bundle") "Patient" = ["entry.item"] ∧
    splitOnChar "entry.item" '.' = ["entry", "item"] ∧
    isRequestorReferenced nestedMatrix ["Patient/3"] "Patient" crashSource =
      .error .typeError := by
  refine ⟨by decide, by decide, by decide, by decide⟩

/-- Claim C2 (amended): whenever the source resource's `resourceType`
access succeeds and every matrix path's breadth-first expansion completes
without a TypeError, the matcher returns ok true iff some dot-path of the
matrix entry ends in a leaf whose `reference` field is a member of the
candidate set (OR semantics: one matching path suffices), and ok false
iff no leaf on any path matches; when an expansion dereferences a null
array element the matcher instead throws a TypeError.  The closed
conjuncts exercise the nested `entry[].item[].reference` list-of-list
path. -/
theorem isRequestorReferenced_characterization :
    (∀ (matrix : RefMatrix) (requestorIds : List String)
        (requestorResourceType : String) (sourceResource sourceResourceType : JsValue),
      jsGetE sourceResource "resourceType" = .ok sourceResourceType →
      (∀ path ∈ matrixPaths matrix sourceResourceType requestorResourceType,
        ∃ leaves, pathLeavesE sourceResource (splitOnChar path '.') = .ok leaves) →
      ((isRequestorReferenced matrix requestorIds requestorResourceType sourceResource =
          .ok true ↔
        ∃ path ∈ matrixPaths matrix sourceResourceType requestorResourceType,
          ∃ leaves, pathLeavesE sourceResource (splitOnChar path '.') = .ok leaves ∧
            ∃ leaf ∈ leaves, leafMatches requestorIds leaf = true) ∧
       (isRequestorReferenced matrix requestorIds requestorResourceType sourceResource =
          .ok false ↔
        ∀ path ∈ matrixPaths matrix sourceResourceType requestorResourceType,
          ∀ leaves, pathLeavesE sourceResource (splitOnChar path '.') = .ok leaves →
            ∀ leaf ∈ leaves, leafMatches requestorIds leaf = false))) ∧
    isRequestorReferenced nestedMatrix ["Patient/3"] "Patient" nestedSource = .ok true ∧
    isRequestorReferenced nestedMatrix ["Patient/999"] "Patient" nestedSource = .ok false := by
  refine ⟨?_, by decide, by decide⟩
  intro matrix requestorIds requestorResourceType sourceResource sourceResourceType hok hall
  have hunf : isRequestorReferenced matrix requestorIds requestorResourceType sourceResource =
      someM (pathMatches requestorIds sourceResource)
        (matrixPaths matrix sourceResourceType requestorResourceType) := by
    unfold isRequestorReferenced
    rw [hok]
  have hforall : ∀ path ∈ matrixPaths matrix sourceResourceType requestorResourceType,
      ∃ b, pathMatches requestorIds sourceResource path = .ok b := by
    intro path hp
    obtain ⟨leaves, hl⟩ := hall path hp
    exact ⟨leaves.any (leafMatches requestorIds), by simp [pathMatches, hl]⟩
  have hsome := someM_all_ok (matrixPaths matrix sourceResourceType requestorResourceType)
    (pathMatches requestorIds sourceResource) hforall
  rw [hunf]
  constructor
  · rw [hsome.1]
    constructor
    · rintro ⟨path, hp, hmt⟩
      obtain ⟨leaves, hl⟩ := hall path hp
      refine ⟨path, hp, leaves, hl, ?_⟩
      rw [← List.any_eq_true]
      simpa [pathMatches, hl] using hmt
    · rintro ⟨path, hp, leaves, hl, hleaf⟩
      refine ⟨path, hp, ?_⟩
      simp only [pathMatches, hl, Except.ok.injEq]
      rw [List.any_eq_true]
      exact hleaf
  · rw [hsome.2]
    constructor
    · intro hallf path hp leaves hl
      have hm := hallf path hp
      rw [pathMatches, hl] at hm
      injection hm with hm
      intro leaf hleaf
      have hn := List.any_eq_false.mp hm leaf hleaf
      simpa using hn
    · intro hrhs path hp
      obtain ⟨leaves, hl⟩ := hall path hp
      have hfalse : leaves.any (leafMatches requestorIds) = false := by
        rw [List.any_eq_false]
        intro leaf hleaf
        simp [hrhs path hp leaves hl leaf hleaf]
      simp [pathMatches, hl, hfalse]

/-- Witness for claim C2 (amended): the no-crash hypotheses hold on the
nested list-of-list resource, and the characterization yields the match
on the second leaf of the first branch. -/
theorem isRequestorReferenced_characterization_witness :
    isRequestorReferenced nestedMatrix ["Patient/2"] "Patient" nestedSource = .ok true :=
  ((isRequestorReferenced_characterization.1 nestedMatrix ["Patient/2"] "Patient"
      nestedSource (.str "Bundle") rfl
      (by
        intro path hp
        have hm : matrixPaths nestedMatrix (.str "Bundle") "Patient" = ["entry.item"] := by
          decide
        rw [hm] at hp
        have hpe : path = "entry.item" := by simpa using hp
        subst hpe
        exact ⟨_, rfl⟩)).1).mpr
    ⟨"entry.item", by decide,
     [.obj [("reference", .str "Patient/1")], .obj [("reference", .str "Patient/2")],
      .obj [("reference", .str "Patient/3")]], rfl,
     .obj [("reference", .str "Patient/2")],
     List.mem_cons_of_mem _ (List.mem_cons_self _ _), by decide⟩

/-- Claim C9: whenever any usable scope begins with `system/` — including
a type-restricted scope such as `system/Patient` —
`getSearchFilterBasedOnIdentity` returns the empty filter list, because
the system-access test is invoked with the empty string as resource type
and matches scopes by prefix. -/
theorem getSearchFilter_system_scope_no_filters :
    ∀ (fhirUserObject patientLaunchContext : Option FhirResource)
      (usableScopes adminAccessTypes : List String) (requestResourceType : Option String)
      (requestFhirServiceBaseUrl : Option String) (apiUrl : String),
      usableScopes.any (fun scope => strStartsWith scope "system/") = true →
      getSearchFilterBasedOnIdentity fhirUserObject patientLaunchContext usableScopes
        adminAccessTypes requestResourceType requestFhirServiceBaseUrl apiUrl = [] := by
  intro fhirUserObject patientLaunchContext usableScopes adminAccessTypes
    requestResourceType requestFhirServiceBaseUrl apiUrl h
  have hsys : hasSystemAccess usableScopes "" = true := by
    simp only [hasSystemAccess, List.any_eq_true, Bool.or_eq_true] at *
    obtain ⟨scope, hmem, hp⟩ := h
    refine ⟨scope, hmem, Or.inr ?_⟩
    have : ("system/" ++ "" : String) = "system/" := by decide
    rw [this]
    exact hp
  simp [getSearchFilterBasedOnIdentity, hsys]

theorem hasSystemAccess_mono (scopes scopes' : List String) (resourceType : String)
    (hsub : ∀ s, s ∈ scopes → s ∈ scopes')
    (h : hasSystemAccess scopes resourceType = true) :
    hasSystemAccess scopes' resourceType = true := by
  simp only [hasSystemAccess, List.any_eq_true] at *
  obtain ⟨s, hs, hp⟩ := h
  exact ⟨s, hsub s hs, hp⟩

/-- Claim C3: if the requestor hostname differs from the base URL,
`hasReferenceToResource` returns true exactly when the matcher finds the
fully-qualified `hostname/Type/id` candidate; if the hostname equals the
base URL, it returns true exactly when the requestor's type and id equal
the source resource's directly (through the successful unguarded
accesses of line 93), or the matcher finds the relative `Type/id` or the
absolute `host/Type/id` candidate form.  Traversal TypeErrors propagate
on both sides of each equivalence. -/
theorem hasReferenceToResource_characterization :
    ∀ (matrix : RefMatrix) (requestorId : FhirResource) (sourceResource : JsValue)
      (apiUrl : String),
      (requestorId.hostname ≠ apiUrl →
        (hasReferenceToResource matrix requestorId sourceResource apiUrl = .ok true ↔
          isRequestorReferenced matrix
            [requestorId.hostname ++ "/" ++ requestorId.resourceType ++ "/" ++ requestorId.id]
            requestorId.resourceType sourceResource = .ok true)) ∧
      (requestorId.hostname = apiUrl →
        (hasReferenceToResource matrix requestorId sourceResource apiUrl = .ok true ↔
          ((∃ sourceResourceType,
             jsGetE sourceResource "resourceType" = .ok sourceResourceType ∧
             jsStrEq sourceResourceType requestorId.resourceType = true ∧
             jsStrEq (jsGet sourceResource "id") requestorId.id = true) ∨
           isRequestorReferenced matrix
             [requestorId.resourceType ++ "/" ++ requestorId.id]
             requestorId.resourceType sourceResource = .ok true ∨
           isRequestorReferenced matrix
             [requestorId.hostname ++ "/" ++ requestorId.resourceType ++ "/" ++ requestorId.id]
             requestorId.resourceType sourceResource = .ok true))) := by
  intro matrix requestorId sourceResource apiUrl
  constructor
  · intro hne
    have hb : (requestorId.hostname != apiUrl) = true := by
      simp [bne_iff_ne, hne]
    simp [hasReferenceToResource, hb]
  · intro heq
    have hb : (requestorId.hostname != apiUrl) = false := by
      simp [heq]
    have hsplit :
        [requestorId.resourceType ++ "/" ++ requestorId.id,
         requestorId.hostname ++ "/" ++ requestorId.resourceType ++ "/" ++ requestorId.id] =
        [requestorId.resourceType ++ "/" ++ requestorId.id] ++
        [requestorId.hostname ++ "/" ++ requestorId.resourceType ++ "/" ++ requestorId.id] := rfl
    simp only [hasReferenceToResource, hb, Bool.false_eq_true, if_false]
    cases hgt : jsGetE sourceResource "resourceType" with
    | error e =>
      have h1 := isRequestorReferenced_error_of_null matrix
        [requestorId.resourceType ++ "/" ++ requestorId.id]
        requestorId.resourceType sourceResource e hgt
      have h2 := isRequestorReferenced_error_of_null matrix
        [requestorId.hostname ++ "/" ++ requestorId.resourceType ++ "/" ++ requestorId.id]
        requestorId.resourceType sourceResource e hgt
      simp [h1, h2, hgt]
    | ok sourceResourceType =>
      dsimp only
      by_cases hd : (jsStrEq sourceResourceType requestorId.resourceType &&
          jsStrEq (jsGet sourceResource "id") requestorId.id) = true
      · rw [if_pos hd]
        rw [Bool.and_eq_true] at hd
        constructor
        · intro _
          exact Or.inl ⟨sourceResourceType, rfl, hd.1, hd.2⟩
        · intro _
          rfl
      · rw [if_neg hd]
        rw [hsplit, isRequestorReferenced_append]
        constructor
        · exact fun h => Or.inr h
        · rintro (⟨v, hv, hc1, hc2⟩ | h)
          · injection hv with hv
            subst hv
            exact absurd (by simp [hc1, hc2]) hd
          · exact h

/-- Witness for claim C3: a local requestor matched through the relative
candidate form on a concrete source resource. -/
theorem hasReferenceToResource_characterization_witness :
    hasReferenceToResource
      (fun st rt => if st == "Observation" && rt == "Patient" then some ["subject"] else none)
      ⟨"https://h", "Patient", "3"⟩
      (.obj [("resourceType", .str "Observation"),
             ("subject", .obj [("reference", .str "Patient/3")])])
      "https://h" = .ok true :=
  ((hasReferenceToResource_characterization
      (fun st rt => if st == "Observation" && rt == "Patient" then some ["subject"] else none)
      ⟨"https://h", "Patient", "3"⟩
      (.obj [("resourceType", .str "Observation"),
             ("subject", .obj [("reference", .str "Patient/3")])])
      "https://h").2 rfl).mpr (Or.inr (Or.inl (by decide)))

/-- Claim C4 as frozen is false on the code: with only a patient launch
context that directly matches the source resource, access is granted;
supplying a fhirUser identity whose reference traversal dereferences a
null array element makes the earlier-evaluated fhirUser channel throw a
TypeError instead of returning true. -/
theorem hasAccessToResource_monotone_counterexample :
    hasAccessToResource gpMatrix none (some ⟨"https://h", "Patient", "5"⟩) gpCrashSource
      [] [] "https://h" = .ok true ∧
    hasAccessToResource gpMatrix (some ⟨"https://h", "Practitioner", "9"⟩)
      (some ⟨"https://h", "Patient", "5"⟩) gpCrashSource [] [] "https://h" =
      .error .typeError := by
  constructor
  · decide
  · decide

/-- Claim C4 (amended): growing the usable-scope list or supplying a
previously absent fhirUser or patient-context identity never flips an
ok-true access decision to ok false — the enlarged call either still
grants access or throws a TypeError raised while traversing the newly
supplied identity's reference paths, but it never denies. -/
theorem hasAccessToResource_monotone :
    ∀ (matrix : RefMatrix)
      (fhirUserObject fhirUserObject' patientLaunchContext patientLaunchContext' : Option FhirResource)
      (sourceResource : JsValue) (usableScopes usableScopes' adminAccessTypes : List String)
      (apiUrl : String),
      (∀ s, s ∈ usableScopes → s ∈ usableScopes') →
      (fhirUserObject = none ∨ fhirUserObject = fhirUserObject') →
      (patientLaunchContext = none ∨ patientLaunchContext = patientLaunchContext') →
      hasAccessToResource matrix fhirUserObject patientLaunchContext sourceResource
        usableScopes adminAccessTypes apiUrl = .ok true →
      hasAccessToResource matrix fhirUserObject' patientLaunchContext' sourceResource
        usableScopes' adminAccessTypes apiUrl ≠ .ok false := by
  intro matrix u u' p p' sourceResource scopes scopes' adminAccessTypes apiUrl
    hsub hu hp hbefore hafter
  unfold hasAccessToResource at hbefore hafter
  cases hgt : jsGetE sourceResource "resourceType" with
  | error e =>
    rw [hgt] at hbefore
    exact absurd hbefore (by simp)
  | ok stv =>
    rw [hgt] at hbefore hafter
    dsimp only at hbefore hafter
    split at hafter
    · exact absurd hafter (by simp)
    · rename_i hsys'f
      split at hafter
      · exact absurd hafter (by simp)
      · rename_i g' heq'
        split at hafter
        · exact absurd hafter (by simp)
        · rename_i hg'f
          split at hbefore
          · rename_i hsys
            exact hsys'f (hasSystemAccess_mono scopes scopes' _ hsub hsys)
          · split at hbefore
            · exact absurd hbefore (by simp)
            · rename_i g heq
              split at hbefore
              · rename_i hg
                rcases hu with hu0 | hue
                · subst hu0
                  simp only [Except.ok.injEq] at heq
                  rw [hg] at heq
                  exact absurd heq.symm (by simp)
                · subst hue
                  rw [hg] at heq
                  rw [heq] at heq'
                  injection heq' with heq'
                  exact hg'f heq'.symm
              · rcases hp with hp0 | hpe
                · subst hp0
                  exact absurd hbefore (by simp)
                · subst hpe
                  cases p with
                  | none => exact absurd hbefore (by simp)
                  | some ctx =>
                    rw [hbefore] at hafter
                    exact absurd hafter (by simp)

/-- Witness for claim C4 (amended): access granted by a system scope is
not denied after enlarging the scope list and supplying a fhirUser
identity. -/
theorem hasAccessToResource_monotone_witness :
    hasAccessToResource (fun _ _ => none) (some ⟨"https://h", "Practitioner", "1"⟩) none
      (.obj [("resourceType", .str "Patient")]) ["system/*", "user/Patient.read"] []
      "https://h" ≠ .ok false :=
  hasAccessToResource_monotone (fun _ _ => none) none (some ⟨"https://h", "Practitioner", "1"⟩)
    none none (.obj [("resourceType", .str "Patient")]) ["system/*"]
    ["system/*", "user/Patient.read"] [] "https://h"
    (by intro s hs; simp at hs; simp [hs]) (Or.inl rfl) (Or.inl rfl) (by decide)

/-- Claim C5: a bundle containing at least one mutating entry (operation
create, update, patch or delete) whose per-resource access check does not
grant access — it either denies or throws during reference traversal,
both caught at the `Promise.all` — is rejected as a whole with the single
bundle denial error, no matter what the other entries would yield. -/
theorem isBundleRequestAuthorized_denies_failing_write :
    ∀ (matrix : RefMatrix) (isScopeSufficient : String → String → String → Bool)
      (scopes : List String) (fhirUserObject patientLaunchContext : Option FhirResource)
      (requests : List BundleEntry) (adminAccessTypes : List String)
      (requestFhirServiceBaseUrl : Option String) (apiUrl : String),
      (∃ req ∈ requests, mutatingOperations.contains req.operation = true ∧
        hasAccessToResource matrix fhirUserObject patientLaunchContext req.resource
          (bundleUsableScopes scopes fhirUserObject patientLaunchContext)
          adminAccessTypes (requestFhirServiceBaseUrl.getD apiUrl) ≠ .ok true) →
      isBundleRequestAuthorized matrix isScopeSufficient scopes fhirUserObject
        patientLaunchContext requests adminAccessTypes requestFhirServiceBaseUrl apiUrl =
        Except.error (.unauthorized "An entry within the Bundle is not authorized") := by
  intro matrix isScopeSufficient scopes u p requests adminAccessTypes rBase apiUrl h
  obtain ⟨req, hreq, hmut, hfail⟩ := h
  simp only [isBundleRequestAuthorized]
  split
  · rfl
  · have h2 : requests.any (fun req =>
        mutatingOperations.contains req.operation &&
        isError (isWriteRequestAuthorized matrix u p (bundleUsableScopes scopes u p)
          adminAccessTypes req.resource rBase apiUrl)) = true := by
      rw [List.any_eq_true]
      refine ⟨req, hreq, ?_⟩
      rw [hmut, Bool.true_and]
      simp only [isWriteRequestAuthorized]
      cases hv : hasAccessToResource matrix u p req.resource (bundleUsableScopes scopes u p)
          adminAccessTypes (rBase.getD apiUrl) with
      | ok b =>
        cases b with
        | true => exact absurd hv hfail
        | false => simp [isError]
      | error e => simp [isError]
    rw [h2]
    rfl

/-- Witness for claim C5: a one-entry bundle whose create entry fails the
access check is denied. -/
theorem isBundleRequestAuthorized_denies_failing_write_witness :
    isBundleRequestAuthorized (fun _ _ => none) (fun _ _ _ => true) [] none none
      [⟨"create", "Patient", .obj [("resourceType", .str "Patient")]⟩] [] none "https://h" =
      Except.error (.unauthorized "An entry within the Bundle is not authorized") :=
  isBundleRequestAuthorized_denies_failing_write (fun _ _ => none) (fun _ _ _ => true) []
    none none [⟨"create", "Patient", .obj [("resourceType", .str "Patient")]⟩] [] none "https://h"
    ⟨⟨"create", "Patient", .obj [("resourceType", .str "Patient")]⟩,
      List.mem_singleton.mpr rfl, by decide, by decide⟩

/-- Claim C6: for the concrete caller identity
`(https://api.example.com, Patient, 123)` requesting resource type
`Patient` against base URL `https://api.example.com`, with no system
scope among the usable scopes, no patient launch context, and `Patient`
not an admin type, the derived search filters are exactly the OR-joined
`_references` filter over the absolute and relative reference forms
followed by the OR-joined `id` filter. -/
theorem getSearchFilter_patient_identity_scenario :
    ∀ (usableScopes adminAccessTypes : List String),
      usableScopes.all (fun scope => !(strStartsWith scope "system/")) = true →
      adminAccessTypes.contains "Patient" = false →
      getSearchFilterBasedOnIdentity (some ⟨"https://api.example.com", "Patient", "123"⟩) none
        usableScopes adminAccessTypes (some "Patient") none "https://api.example.com" =
        [⟨"_references", ["https://api.example.com/Patient/123", "Patient/123"], "==", "OR"⟩,
         ⟨"id", ["123"], "==", "OR"⟩] := by
  intro usableScopes adminAccessTypes hns hna
  have hsys : hasSystemAccess usableScopes "" = false := by
    simp only [hasSystemAccess, List.any_eq_false, Bool.or_eq_true, not_or]
    simp only [List.all_eq_true] at hns
    intro s hs
    have h1 : strStartsWith s "system/" = false := by
      have := hns s hs
      simpa using this
    have h2 : strStartsWith s "system/*" = false := by
      cases hx : strStartsWith s "system/*" with
      | false => rfl
      | true =>
        have ht := strStartsWith_trans s "system/*" "system/" (by decide) hx
        simp [h1] at ht
    have h7 : ("system/" ++ "" : String) = "system/" := by decide
    rw [h7]
    simp [h1, h2]
  have hadm : isFhirUserAdmin ⟨"https://api.example.com", "Patient", "123"⟩
      adminAccessTypes "https://api.example.com" = false := by
    have hmem : "Patient" ∉ adminAccessTypes := by simpa using hna
    simp [isFhirUserAdmin, hmem]
  simp only [getSearchFilterBasedOnIdentity, Option.getD_none, hsys, hadm,
    Bool.false_eq_true, if_false]
  decide

/-- Witness for claim C6 at a concrete scope and admin-type list. -/
theorem getSearchFilter_patient_identity_scenario_witness :
    getSearchFilterBasedOnIdentity (some ⟨"https://api.example.com", "Patient", "123"⟩) none
      ["user/Patient.read"] ["Practitioner"] (some "Patient") none "https://api.example.com" =
      [⟨"_references", ["https://api.example.com/Patient/123", "Patient/123"], "==", "OR"⟩,
       ⟨"id", ["123"], "==", "OR"⟩] :=
  getSearchFilter_patient_identity_scenario ["user/Patient.read"] ["Practitioner"]
    (by decide) (by decide)

theorem attachFhirUser_isSome (usableScopes : List String) (fhirUserClaim : Option String)
    (r : Option FhirResource) (h : attachFhirUser usableScopes fhirUserClaim = .ok r)
    (hs : r.isSome = true) :
    jsTruthyOptStr fhirUserClaim = true ∧
    (usableScopes.any fun scope => strStartsWith scope "user/") = true := by
  cases fhirUserClaim with
  | none =>
    simp only [attachFhirUser, Except.ok.injEq] at h
    subst h
    simp at hs
  | some claim =>
    simp only [attachFhirUser] at h
    by_cases hcond :
        (!claim.isEmpty && (usableScopes.any fun scope => strStartsWith scope "user/")) = true
    · have hc := (Bool.and_eq_true _ _).mp hcond
      exact ⟨by simpa [jsTruthyOptStr] using hc.1, hc.2⟩
    · rw [if_neg hcond] at h
      injection h with h
      subst h
      simp at hs

theorem attachPatientContext_isSome (usableScopes : List String)
    (patientContextClaim : Option String) (fhirServiceBaseUrl : String)
    (r : Option FhirResource)
    (h : attachPatientContext usableScopes patientContextClaim fhirServiceBaseUrl = .ok r)
    (hs : r.isSome = true) :
    jsTruthyOptStr patientContextClaim = true ∧
    (usableScopes.any fun scope => strStartsWith scope "patient/") = true := by
  cases patientContextClaim with
  | none =>
    simp only [attachPatientContext, Except.ok.injEq] at h
    subst h
    simp at hs
  | some claim =>
    simp only [attachPatientContext] at h
    by_cases hcond :
        (!claim.isEmpty && (usableScopes.any fun scope => strStartsWith scope "patient/")) = true
    · have hc := (Bool.and_eq_true _ _).mp hcond
      exact ⟨by simpa [jsTruthyOptStr] using hc.1, hc.2⟩
    · rw [if_neg hcond] at h
      injection h with h
      subst h
      simp at hs

/-- Claim C7: after token verification, `verifyAccessToken` denies when
the filtered usable-scope set is empty; when it succeeds, the returned
identity carries `fhirUserObject` only if the fhirUser claim is truthy
and some usable scope starts with `user/`, and carries
`patientLaunchContext` only if the patient-context claim is truthy and
some usable scope starts with `patient/`. -/
theorem verifyAccessToken_scope_gate_and_identity_attachment :
    ∀ (filterOutUnusableScope : List String → Option String → Option String → List String)
      (bulkDataAccessTypes : List String) (decodedToken : DecodedToken) (bulkDataAuth : Bool)
      (requestFhirServiceBaseUrl : Option String) (apiUrl : String),
      (filterOutUnusableScope decodedToken.scopes decodedToken.patientContextClaim
          decodedToken.fhirUserClaim = [] →
        verifyAccessToken filterOutUnusableScope bulkDataAccessTypes decodedToken
          bulkDataAuth requestFhirServiceBaseUrl apiUrl =
          .error (.unauthorized "access_token does not have permission for requested operation")) ∧
      (∀ userIdentity,
        verifyAccessToken filterOutUnusableScope bulkDataAccessTypes decodedToken
          bulkDataAuth requestFhirServiceBaseUrl apiUrl = .ok userIdentity →
        (userIdentity.fhirUserObject.isSome = true →
          jsTruthyOptStr decodedToken.fhirUserClaim = true ∧
          (userIdentity.usableScopes.any fun scope => strStartsWith scope "user/") = true) ∧
        (userIdentity.patientLaunchContext.isSome = true →
          jsTruthyOptStr decodedToken.patientContextClaim = true ∧
          (userIdentity.usableScopes.any fun scope => strStartsWith scope "patient/") = true)) := by
  intro filterOutUnusableScope bulkDataAccessTypes decodedToken bulkDataAuth
    requestFhirServiceBaseUrl apiUrl
  constructor
  · intro hempty
    simp [verifyAccessToken, hempty]
  · intro userIdentity h
    simp only [verifyAccessToken] at h
    split at h
    · exact absurd h (by simp)
    · split at h
      · exact absurd h (by simp)
      · split at h
        · exact absurd h (by simp)
        · rename_i fhirUserObject hfu
          split at h
          · exact absurd h (by simp)
          · rename_i patientLaunchContext hpc
            injection h with h
            subst h
            constructor
            · intro hs
              exact attachFhirUser_isSome _ _ _ hfu hs
            · intro hs
              exact attachPatientContext_isSome _ _ _ _ hpc hs

/-- Witness for claim C7: a token carrying a fhirUser claim and a
user-scoped usable scope yields an identity whose attachment conditions
hold. -/
theorem verifyAccessToken_scope_gate_witness :
    jsTruthyOptStr (some "https://api.example.com/Patient/123") = true ∧
    (["user/Patient.read"].any fun scope => strStartsWith scope "user/") = true :=
  ((verifyAccessToken_scope_gate_and_identity_attachment (fun scopes _ _ => scopes) []
      ⟨some "sub1", some "https://api.example.com/Patient/123", none, ["user/Patient.read"]⟩
      false none "https://api.example.com").2
    ⟨some "sub1", some ⟨"https://api.example.com", "Patient", "123"⟩, none,
      ["user/Patient.read"], ["user/Patient.read"]⟩ (by rfl)).1 rfl

/-- Claim C8: a decodable token whose `iss` claim differs from the
configured issuer is denied with the single opaque invalid-access-token
error, before and regardless of any signature or introspection outcome. -/
theorem decode_denies_iss_mismatch :
    ∀ (tok : DecodedJwt) (expectedAudValue : String → Bool) (expectedIssValue : String),
      tok.payload.iss ≠ some expectedIssValue →
      decodeJwtToken (some tok) expectedAudValue expectedIssValue =
        .error (.unauthorized "Invalid access token") ∧
      (∀ signatureCheck,
        verifyJwtToken (some tok) expectedAudValue expectedIssValue signatureCheck =
          .error (.unauthorized "Invalid access token")) ∧
      (∀ introspectionResult,
        introspectJwtToken (some tok) expectedAudValue expectedIssValue introspectionResult =
          .error (.unauthorized "Invalid access token")) := by
  intro tok expectedAudValue expectedIssValue hne
  have hb : (tok.payload.iss != some expectedIssValue) = true := by
    simp [bne_iff_ne, hne]
  have hdec : decodeJwtToken (some tok) expectedAudValue expectedIssValue =
      .error (.unauthorized "Invalid access token") := by
    simp [decodeJwtToken, hb, GENERIC_ERR_MESSAGE]
  refine ⟨hdec, ?_, ?_⟩
  · intro signatureCheck
    simp [verifyJwtToken, hdec]
  · intro introspectionResult
    simp [introspectJwtToken, hdec]

/-- Witness for claim C8: a token issued by `https://issuer.a` checked
against expected issuer `https://issuer.b` is denied at decode time. -/
theorem decode_denies_iss_mismatch_witness :
    decodeJwtToken (some ⟨none, ⟨some "https://issuer.a", .absent⟩⟩) (fun _ => true)
      "https://issuer.b" = .error (.unauthorized "Invalid access token") :=
  (decode_denies_iss_mismatch ⟨none, ⟨some "https://issuer.a", .absent⟩⟩ (fun _ => true)
    "https://issuer.b" (by decide)).1

/-- Claim C10: in the search branch of `authorizeAndFilterReadResponse`,
a truthy non-zero reported `total` together with an absent `entry` field
produces the runtime TypeError of dereferencing `readResponse.entry`,
not a filtered bundle and not an authorization denial; the fallback to
the filtered count is applied only when `total` is absent or zero, and
only when the entry filter itself completes — a TypeError thrown inside
the filter (null entry element, or traversal crash) propagates
instead. -/
theorem searchResponse_total_without_entry_type_error :
    ∀ (matrix : RefMatrix) (fhirUserObject patientLaunchContext : Option FhirResource)
      (usableScopes adminAccessTypes : List String) (requestFhirServiceBaseUrl : Option String)
      (apiUrl : String) (readResponse : SearchReadResponse),
      (∀ numTotal : Int, readResponse.total = some numTotal → numTotal ≠ 0 →
        readResponse.entry = none →
        authorizeAndFilterSearchResponse matrix fhirUserObject patientLaunchContext usableScopes
          adminAccessTypes requestFhirServiceBaseUrl apiUrl readResponse = .error .typeError) ∧
      (∀ entries, (readResponse.total = none ∨ readResponse.total = some 0) →
        filterE (entryAccessible matrix fhirUserObject patientLaunchContext usableScopes
            adminAccessTypes (requestFhirServiceBaseUrl.getD apiUrl))
          (readResponse.entry.getD []) = .ok entries →
        authorizeAndFilterSearchResponse matrix fhirUserObject patientLaunchContext usableScopes
          adminAccessTypes requestFhirServiceBaseUrl apiUrl readResponse =
          .ok ⟨some entries, some entries.length⟩) ∧
      (∀ e, filterE (entryAccessible matrix fhirUserObject patientLaunchContext usableScopes
            adminAccessTypes (requestFhirServiceBaseUrl.getD apiUrl))
          (readResponse.entry.getD []) = .error e →
        authorizeAndFilterSearchResponse matrix fhirUserObject patientLaunchContext usableScopes
          adminAccessTypes requestFhirServiceBaseUrl apiUrl readResponse = .error e) := by
  intro matrix fhirUserObject patientLaunchContext usableScopes adminAccessTypes
    requestFhirServiceBaseUrl apiUrl readResponse
  refine ⟨?_, ?_, ?_⟩
  · intro numTotal htot hn hent
    have hz : (numTotal == 0) = false := by simp [hn]
    simp [authorizeAndFilterSearchResponse, htot, hent, hz, filterE]
  · intro entries hfalsy hfe
    rcases hfalsy with h0 | h0 <;>
      simp [authorizeAndFilterSearchResponse, h0, hfe]
  · intro e hfe
    simp [authorizeAndFilterSearchResponse, hfe]

/-- Witness for claim C10: a search response reporting `total = 5` with no
`entry` field crashes with the TypeError. -/
theorem searchResponse_total_without_entry_witness :
    authorizeAndFilterSearchResponse (fun _ _ => none) none none [] [] none "https://h"
      ⟨none, some 5⟩ = .error .typeError :=
  (searchResponse_total_without_entry_type_error (fun _ _ => none) none none [] [] none
    "https://h" ⟨none, some 5⟩).1 5 rfl (by decide) rfl

/-- Witness for claim C9 at a concrete identity and scope list. -/
theorem getSearchFilter_system_scope_no_filters_witness :
    getSearchFilterBasedOnIdentity (some ⟨"https://h", "Practitioner", "9"⟩) none
      ["system/Patient"] [] (some "Patient") none "https://h" = [] :=
  getSearchFilter_system_scope_no_filters (some ⟨"https://h", "Practitioner", "9"⟩) none
    ["system/Patient"] [] (some "Patient") none "https://h" (by decide)
